import Mathlib

/-!
Shallow embedding of the core of the replicated state-machine host
(packages/valory/skills/abstract_round_abci/base.py): the payload and
transaction model with its metaclass registry, the blockchain and block
builder, the consensus parameters, the period state, the abstract round
contract, and the Period state machine driven by the four ABCI entry
points.

Conventions of the embedding:
- Python exceptions are modelled by the error type PyError together with
  Except-valued functions; raising leaves the caller's state untouched,
  which in this functional embedding corresponds to the fact that an
  Except.error result carries no updated state.
- Python ints are modelled as Int (or Nat where the source value is a
  count), Python dicts as association lists in insertion order, and
  Python attribute namespaces as functions into Option.
- The single floating-point computation of the source, the expression
  ceil(max_participants * 2 / 3), is modelled exactly: Python true
  division of two ints produces the IEEE-754 binary64 value nearest to
  the rational quotient (ties to even), and math.ceil of that value is
  exact.  The rounding is embedded with unbounded exponent range, which
  agrees with binary64 for all magnitudes far from overflow/underflow.
-/

set_option maxRecDepth 8000

/-- Python values appearing as payload fields and period-state fields.
The constructor vNone models the Python value None. -/
inductive Value where
  | vNone
  | vStr (s : String)
  | vInt (n : Int)
  | vBool (b : Bool)
  deriving DecidableEq

/-- Python exceptions raised by the embedded code.  Each constructor
corresponds to one exception class or one distinct ValueError message of
the source. -/
inductive PyError where
  | signatureNotValid
  | addBlockError (expected actual : Int)
  | transactionNotValid
  | unknownTransactionType
  | phaseMismatch (entryPoint : String)
  | periodFinished
  | currentRoundNone
  | headerNotSet
  | headerAlreadySet
  | duplicateTag (tag : String)
  | keyError (key : String)
  | attributeError (name : String)
  | notPayloadSubclass
  | typeError
  deriving DecidableEq

/-- Tells whether an Except-valued computation raised. -/
def isErr {α : Type} : Except PyError α → Bool
  | .error _ => true
  | .ok _ => false

/-- BaseTxPayload: sender plus the schema-specific fields.  The field
transaction_type holds the string form of the tag of the concrete
schema, and data holds the schema-specific fields in declaration order
(the data property of the source). -/
structure BaseTxPayload where
  transaction_type : String
  sender : String
  data : List (String × Value)
  deriving DecidableEq

/-- A Python object exposing attributes sender and data.  BaseTxPayload
eq reads only these two attributes of its right operand, so the operand
is not required to be a payload at all; this type is the embedding of
that duck-typed operand. -/
structure PyDuck where
  sender : String
  data : List (String × Value)
  deriving DecidableEq

/-- View of a payload as a plain object with sender and data. -/
def BaseTxPayload.toDuck (p : BaseTxPayload) : PyDuck :=
  ⟨p.sender, p.data⟩

/-- BaseTxPayload eq of the source: self.sender == other.sender and
self.data == other.data.  There is no isinstance check and the
transaction_type tag does not take part. -/
def BaseTxPayload.pyEq (p : BaseTxPayload) (other : PyDuck) : Bool :=
  p.sender == other.sender && p.data == other.data

/-- Transaction: a payload plus a signature. -/
structure Transaction where
  payload : BaseTxPayload
  signature : String
  deriving DecidableEq

/-- Header: the subset of the Tendermint block header used by the core,
a height. -/
structure Header where
  height : Int
  deriving DecidableEq

/-- Block: a header and the ordered transactions. -/
structure Block where
  header : Header
  transactions : List Transaction
  deriving DecidableEq

/-- Blockchain: the ordered list of committed blocks. -/
structure Blockchain where
  blocks : List Block
  deriving DecidableEq

/-- Blockchain length: the number of blocks. -/
def Blockchain.length (c : Blockchain) : Nat :=
  c.blocks.length

/-- Blockchain height: self.length + 1, the height expected for the
next block. -/
def Blockchain.height (c : Blockchain) : Int :=
  (c.length : Int) + 1

/-- Blockchain add_block: raise AddBlockError unless the header height
equals the expected height, otherwise append the block. -/
def Blockchain.add_block (c : Blockchain) (block : Block) : Except PyError Blockchain :=
  let expected_height := c.height
  let actual_height := block.header.height
  if expected_height ≠ actual_height then
    .error (.addBlockError expected_height actual_height)
  else
    .ok ⟨c.blocks ++ [block]⟩

/-- The empty blockchain of Blockchain init. -/
def Blockchain.empty : Blockchain := ⟨[]⟩

/-- Sequential addition of a list of blocks, stopping at the first
failure; used to state properties of a chain after n appends. -/
def Blockchain.addAll : Blockchain → List Block → Except PyError Blockchain
  | c, [] => .ok c
  | c, b :: rest =>
    match c.add_block b with
    | .error e => .error e
    | .ok c' => Blockchain.addAll c' rest

/-- BlockBuilder: the scratch area for the in-flight block. -/
structure BlockBuilder where
  current_header : Option Header
  current_transactions : List Transaction

/-- BlockBuilder reset: clear the header and the transaction buffer. -/
def BlockBuilder.reset (_b : BlockBuilder) : BlockBuilder :=
  ⟨none, []⟩

/-- BlockBuilder header setter: raise if the header is already set. -/
def BlockBuilder.set_header (b : BlockBuilder) (header : Header) : Except PyError BlockBuilder :=
  match b.current_header with
  | some _ => .error .headerAlreadySet
  | none => .ok ⟨some header, b.current_transactions⟩

/-- BlockBuilder add_transaction: append to the buffer. -/
def BlockBuilder.add_transaction (b : BlockBuilder) (t : Transaction) : BlockBuilder :=
  ⟨b.current_header, b.current_transactions ++ [t]⟩

/-- BlockBuilder get_block: raise if the header is not set, otherwise
build the block from the header and the buffered transactions. -/
def BlockBuilder.get_block (b : BlockBuilder) : Except PyError Block :=
  match b.current_header with
  | none => .error .headerNotSet
  | some h => .ok ⟨h, b.current_transactions⟩

/-- Floor of the base-2 logarithm, by structural recursion on a fuel
argument so that the kernel can evaluate it; log2go n n computes
the floor of log2 n for every positive n (and 0 at 0). -/
def log2go : Nat → Nat → Nat
  | 0, _ => 0
  | fuel + 1, n => if n ≤ 1 then 0 else log2go fuel (n / 2) + 1

/-- Floor of log2 n (0 at 0). -/
def log2floor (n : Nat) : Nat := log2go n n

/-- Rounding of the rational a / b (b positive) to the nearest integer,
ties to even: the rounding rule of IEEE-754 binary64. -/
def rndNE (a b : Nat) : Nat :=
  let q := a / b
  let r := a % b
  if 2 * r < b then q
  else if b < 2 * r then q + 1
  else if q % 2 = 0 then q else q + 1

/-- Floor of log2 (a / b) for positive a and b, computed by scaling a
up by enough powers of two that the integer quotient determines the
answer. -/
def ratFloorLog2 (a b : Nat) : Int :=
  let s := log2floor b + 65
  (log2floor ((a <<< s) / b) : Int) - (s : Int)

/-- IEEE-754 binary64 value of the quotient a / b of two naturals, as a
pair (m, t) meaning m * 2 ^ t: the 53-bit significand m is the quotient
scaled into the interval from 2^52 to 2^53 and rounded to nearest, ties
to even.  The exponent is unbounded, which matches binary64 away from
overflow and underflow.  This embeds Python true division of two
non-negative ints. -/
def floatDivMant (a b : Nat) : Nat × Int :=
  if a = 0 then (0, 0)
  else
    let e : Int := ratFloorLog2 a b
    let k : Int := 52 - e
    if 0 ≤ k then (rndNE (a <<< k.toNat) b, -k)
    else (rndNE a (b <<< (-k).toNat), -k)

/-- Exact ceiling of the value m * 2 ^ t: the embedding of math.ceil on
a non-negative float given as significand and exponent. -/
def pythonCeil (m : Nat) (t : Int) : Nat :=
  if 0 ≤ t then m <<< t.toNat
  else (m + (1 <<< (-t).toNat) - 1) >>> (-t).toNat

/-- ConsensusParams: the immutable consensus configuration. -/
structure ConsensusParams where
  max_participants : Nat
  deriving DecidableEq

/-- ConsensusParams two_thirds_threshold of the source: the expression
ceil(self.max_participants * 2 / 3), where the division of the two ints
is Python true division, that is correctly rounded binary64 division,
and math.ceil of the resulting float is exact. -/
def ConsensusParams.two_thirds_threshold (c : ConsensusParams) : Nat :=
  let p := floatDivMant (c.max_participants * 2) 3
  pythonCeil p.1 p.2

/-- Exact integer ceiling of 2 * n / 3, written from the words of the
specification for comparison with the source computation. -/
def specTwoThirdsCeil (n : Nat) : Nat :=
  (2 * n + 2) / 3

/-- The process-wide payload registry of the metaclass: a mapping from
transaction-type tag to the concrete payload class.  The class identity
of the source is embedded by an arbitrary type with decidable equality. -/
def Registry (Schema : Type) : Type := String → Option Schema

/-- The validate-then-assign core of the metaclass registration: raise
a duplicate-tag ValueError when the tag is already bound to a different
class, otherwise store the binding (re-storing an existing identical
binding rewrites the same value). -/
def Registry.register {Schema : Type} [DecidableEq Schema]
    (reg : Registry Schema) (tag : String) (cls : Schema) : Except PyError (Registry Schema) :=
  match reg tag with
  | some previous =>
    if previous ≠ cls then .error (.duplicateTag tag)
    else .ok (fun t => if t = tag then some cls else reg t)
  | none => .ok (fun t => if t = tag then some cls else reg t)

/-- Registry lookup, the dictionary access of from_json: a missing tag
raises KeyError. -/
def Registry.lookup {Schema : Type} (reg : Registry Schema) (tag : String) : Except PyError Schema :=
  match reg tag with
  | none => .error (.keyError tag)
  | some s => .ok s

/-- The get_field helper of the metaclass.  Its guard in the source is
the conjunction: not hasattr(cls, f) and getattr(cls, f) is None.  When
the attribute exists the first conjunct is false, so the function
returns the attribute (even when its value is None); when the attribute
is missing, evaluating the second conjunct calls getattr without a
default, which raises AttributeError, so the explicit must-set
ValueError of the source is unreachable.  The attribute namespace of
the class is embedded as a function into Option Value. -/
def metaGetField (attrs : String → Option Value) (field_name : String) : Except PyError Value :=
  match attrs field_name with
  | some v => .ok v
  | none => .error (.attributeError field_name)

/-- The str conversion applied to the transaction_type attribute. -/
def strOfValue : Value → String
  | .vNone => "None"
  | .vStr s => s
  | .vInt n => toString n
  | .vBool b => cond b "True" "False"

/-- The new method of the payload metaclass: skip classes imported from
modules whose name starts with the string packages followed by a dot,
skip abstract classes, reject classes that are not payload subclasses,
and otherwise read the transaction_type attribute and register the
class under the string form of that attribute. -/
def metaPayloadNew {Schema : Type} [DecidableEq Schema]
    (reg : Registry Schema) (moduleStartsWithPackages : Bool) (isAbstract : Bool)
    (isPayloadSubclass : Bool) (attrs : String → Option Value) (cls : Schema) :
    Except PyError (Registry Schema) :=
  if moduleStartsWithPackages then .ok reg
  else if isAbstract then .ok reg
  else if ¬ isPayloadSubclass then .error .notPayloadSubclass
  else
    match metaGetField attrs "transaction_type" with
    | .error e => .error e
    | .ok v => reg.register (strOfValue v) cls

/-- Setting one key of a Python dict held as an association list in
insertion order: replace the value of an existing key in place,
otherwise append the new binding at the end. -/
def dictSet (d : List (String × Value)) (k : String) (v : Value) : List (String × Value) :=
  match d with
  | [] => [(k, v)]
  | (k', v') :: rest => if k' = k then (k, v) :: rest else (k', v') :: dictSet rest k v

/-- Python dict.update: set every binding of the overrides, left to
right. -/
def dictUpdate (d : List (String × Value)) (overrides : List (String × Value)) :
    List (String × Value) :=
  overrides.foldl (fun acc kv => dictSet acc kv.1 kv.2) d

/-- Python dict lookup on the association list. -/
def dictGet (d : List (String × Value)) (k : String) : Option Value :=
  match d with
  | [] => none
  | (k', v) :: rest => if k' = k then some v else dictGet rest k

/-- BasePeriodState, embedded as the dict of its public fields: the
source keeps each field as an attribute with a leading underscore and
its update method strips the underscore, so the embedding keys fields
directly by their public names. -/
abbrev BasePeriodState := List (String × Value)

/-- BasePeriodState update of the source: copy the field dict of the
state, apply the overrides with dict.update, and build a fresh state of
the same schema from the result.  The constructor call of the source
accepts exactly the declared field names, so overrides introducing an
unknown key raise TypeError there; theorems below therefore assume the
override keys are fields of the state. -/
def BasePeriodState.update (x : BasePeriodState) (overrides : List (String × Value)) :
    BasePeriodState :=
  dictUpdate x overrides

/-- BasePeriodState participants: raise when the field holds None. -/
def BasePeriodState.participants (x : BasePeriodState) : Except PyError Value :=
  match dictGet x "participants" with
  | none => .error (.attributeError "participants")
  | some .vNone => .error (.attributeError "participants")
  | some v => .ok v

/-- AbstractRound: a round is embedded as its observable behaviour.
The source dispatches by attribute lookup on the method namespace of
the concrete class: the checker of a tag is the method check_ followed
by the tag and the applier is the method named by the tag itself, and
the two lookups are independent.  An applier returns the round after
the mutation of self, and the end_block field holds the value the
end_block method returns for the current internal state: none while the
round continues, otherwise the round result paired with the successor
round (no successor meaning the period terminates). -/
inductive AbstractRound : Type where
  | mk (round_id : String)
       (checkers : String → Option (BaseTxPayload → Bool))
       (appliers : String → Option (BaseTxPayload → AbstractRound))
       (ender : Option (BasePeriodState × Option AbstractRound))

/-- Round id of a round. -/
def AbstractRound.round_id : AbstractRound → String
  | .mk i _ _ _ => i

/-- Checker namespace of a round: the check-prefixed methods, keyed by
tag. -/
def AbstractRound.checkers : AbstractRound → String → Option (BaseTxPayload → Bool)
  | .mk _ c _ _ => c

/-- Applier namespace of a round: the tag-named methods, keyed by tag. -/
def AbstractRound.appliers : AbstractRound → String → Option (BaseTxPayload → AbstractRound)
  | .mk _ _ a _ => a

/-- Value returned by the end_block method of the round. -/
def AbstractRound.end_block : AbstractRound → Option (BasePeriodState × Option AbstractRound)
  | .mk _ _ _ e => e

/-- AbstractRound check_transaction: look up the checker of the payload
tag; return false when the tag is not recognised, otherwise the verdict
of the checker on the payload.  Pure: no state is touched. -/
def AbstractRound.check_transaction (r : AbstractRound) (transaction : Transaction) : Bool :=
  let tx_type := transaction.payload.transaction_type
  match r.checkers tx_type with
  | none => false
  | some payload_handler => payload_handler transaction.payload

/-- AbstractRound process_transaction, in source order: first look up
the applier of the payload tag and raise the request-not-recognized
ValueError when it is missing; then re-run check_transaction and raise
TransactionNotValidError when it returns false; otherwise run the
applier, which yields the mutated round. -/
def AbstractRound.process_transaction (r : AbstractRound) (transaction : Transaction) :
    Except PyError AbstractRound :=
  let tx_type := transaction.payload.transaction_type
  match r.appliers tx_type with
  | none => .error .unknownTransactionType
  | some handler =>
    if ¬ r.check_transaction transaction then .error .transactionNotValid
    else .ok (handler transaction.payload)

/-- The three phases of ABCI-based block construction. -/
inductive BlockConstructionState where
  | waitingForBeginBlock
  | waitingForDeliverTx
  | waitingForCommit
  deriving DecidableEq

/-- Period: the outermost controller, owning the blockchain, the block
builder, the block-construction phase, the current round (none once the
period has terminated), and the histories of past rounds and round
results. -/
structure Period where
  blockchain : Blockchain
  block_construction_phase : BlockConstructionState
  block_builder : BlockBuilder
  current_round : Option AbstractRound
  previous_rounds : List AbstractRound
  round_results : List BasePeriodState

/-- Period is_finished: the current round has been cleared. -/
def Period.is_finished (p : Period) : Bool :=
  p.current_round.isNone

/-- Period begin_block: reject a finished period, then reject any phase
other than waiting-for-begin-block; otherwise move to the
waiting-for-deliver-tx phase, reset the builder and set its header (the
setter cannot fail right after a reset). -/
def Period.begin_block (p : Period) (header : Header) : Except PyError Period :=
  if p.is_finished then .error .periodFinished
  else if p.block_construction_phase ≠ .waitingForBeginBlock then
    .error (.phaseMismatch "begin_block")
  else
    match (p.block_builder.reset).set_header header with
    | .error e => .error e
    | .ok builder =>
      .ok { p with
              block_construction_phase := .waitingForDeliverTx,
              block_builder := builder }

/-- Period deliver_tx: reject any phase other than
waiting-for-deliver-tx; run check_transaction on the current round (the
source calls it on the raw optional attribute, so a missing round is an
attribute error on None); when valid, process the transaction on the
round and append it to the builder; return the verdict. -/
def Period.deliver_tx (p : Period) (transaction : Transaction) :
    Except PyError (Bool × Period) :=
  if p.block_construction_phase ≠ .waitingForDeliverTx then
    .error (.phaseMismatch "deliver_tx")
  else
    match p.current_round with
    | none => .error .currentRoundNone
    | some r =>
      let is_valid := r.check_transaction transaction
      if is_valid then
        match r.process_transaction transaction with
        | .error e => .error e
        | .ok r' =>
          .ok (is_valid,
               { p with
                   current_round := some r',
                   block_builder := p.block_builder.add_transaction transaction })
      else .ok (is_valid, p)

/-- Period end_block: reject any phase other than
waiting-for-deliver-tx, otherwise move to the waiting-for-commit
phase. -/
def Period.end_block (p : Period) : Except PyError Period :=
  if p.block_construction_phase ≠ .waitingForDeliverTx then
    .error (.phaseMismatch "end_block")
  else .ok { p with block_construction_phase := .waitingForCommit }

/-- The update_round helper of commit: ask the current round whether it
ended; keep it if not, otherwise push it onto the history together with
its result and install the successor (none terminating the period). -/
def Period.update_round (p : Period) : Except PyError Period :=
  match p.current_round with
  | none => .error .currentRoundNone
  | some current_round =>
    match current_round.end_block with
    | none => .ok p
    | some (round_result, next_round) =>
      .ok { p with
              previous_rounds := p.previous_rounds ++ [current_round],
              round_results := p.round_results ++ [round_result],
              current_round := next_round }

/-- Period commit: reject any phase other than waiting-for-commit;
build the block, append it to the chain (an AddBlockError is re-raised
verbatim by the source, so it propagates and neither the phase move nor
the round update below it happens), update the round, and only then
move back to the waiting-for-begin-block phase. -/
def Period.commit (p : Period) : Except PyError Period :=
  if p.block_construction_phase ≠ .waitingForCommit then
    .error (.phaseMismatch "commit")
  else
    match p.block_builder.get_block with
    | .error e => .error e
    | .ok block =>
      match p.blockchain.add_block block with
      | .error e => .error e
      | .ok chain =>
        match Period.update_round { p with blockchain := chain } with
        | .error e => .error e
        | .ok p' =>
          .ok { p' with block_construction_phase := .waitingForBeginBlock }

/-- A copy of the period placed in a given phase; used to enumerate the
twelve phase and entry-point combinations. -/
def Period.withPhase (p : Period) (ph : BlockConstructionState) : Period :=
  { p with block_construction_phase := ph }

/-- Number of the twelve phase and entry-point combinations on which
the entry point raises, for a given period, header and transaction. -/
def numFailingCells (p : Period) (hdr : Header) (tx : Transaction) : Nat :=
  let cellCount := fun (ph : BlockConstructionState) =>
    (if isErr ((p.withPhase ph).begin_block hdr) then 1 else 0) +
    (if isErr ((p.withPhase ph).deliver_tx tx) then 1 else 0) +
    (if isErr ((p.withPhase ph).end_block) then 1 else 0) +
    (if isErr ((p.withPhase ph).commit) then 1 else 0)
  cellCount .waitingForBeginBlock + cellCount .waitingForDeliverTx +
    cellCount .waitingForCommit

/-- A payload of tag a used by the concrete scenarios. -/
def exPayloadA : BaseTxPayload := ⟨"a", "agent_address", [("content", .vInt 1)]⟩

/-- A payload of tag b with the same sender and data as the tag-a one. -/
def exPayloadB : BaseTxPayload := ⟨"b", "agent_address", [("content", .vInt 1)]⟩

/-- A transaction carrying the tag-a payload. -/
def exTxA : Transaction := ⟨exPayloadA, "signature_a"⟩

/-- A transaction carrying the tag-b payload. -/
def exTxB : Transaction := ⟨exPayloadB, "signature_b"⟩

/-- A round recognising no tag at all. -/
def roundLeaf : AbstractRound :=
  .mk "leaf_round" (fun _ => none) (fun _ => none) none

/-- The applier of tag a of the example round: mutate into the leaf
round. -/
def applyA : BaseTxPayload → AbstractRound := fun _ => roundLeaf

/-- A round with a checker accepting tag a and an applier for tag a. -/
def exRound : AbstractRound :=
  .mk "round_a"
    (fun t => if t = "a" then some (fun _ => true) else none)
    (fun t => if t = "a" then some applyA else none)
    none

/-- A round whose checker accepts tag a but which has no applier for
it: the check-prefixed method exists, the tag-named method does not. -/
def exRoundNoApplier : AbstractRound :=
  .mk "round_no_applier"
    (fun t => if t = "a" then some (fun _ => true) else none)
    (fun _ => none)
    none

/-- A header of height one. -/
def exHeader1 : Header := ⟨1⟩

/-- A builder whose header is set to height one. -/
def exBuilder1 : BlockBuilder := ⟨some exHeader1, []⟩

/-- A healthy unfinished period: empty chain, builder header at the
expected height one, active round recognising tag a. -/
def exPeriod : Period :=
  ⟨Blockchain.empty, .waitingForBeginBlock, exBuilder1, some exRound, [], []⟩

/-- The healthy period placed in the deliver-tx phase. -/
def exPeriodDeliver : Period :=
  ⟨Blockchain.empty, .waitingForDeliverTx, exBuilder1, some exRound, [], []⟩

/-- A period in the deliver-tx phase whose round accepts tag a but has
no applier for it. -/
def exPeriodNoApplier : Period :=
  ⟨Blockchain.empty, .waitingForDeliverTx, exBuilder1, some exRoundNoApplier, [], []⟩

/-- A period in the commit phase whose builder header height three does
not match the expected height one of its empty chain. -/
def exPeriodCommitBad : Period :=
  ⟨Blockchain.empty, .waitingForCommit, ⟨some ⟨3⟩, []⟩, some exRound, [], []⟩

/-- An empty block of height one. -/
def blkH1 : Block := ⟨⟨1⟩, []⟩

/-- An empty block of height two. -/
def blkH2 : Block := ⟨⟨2⟩, []⟩

/-- An empty block of height three. -/
def blkH3 : Block := ⟨⟨3⟩, []⟩

/-- Claim C6, counterexample: at max_participants equal to
100000000000000001 the source computes ceil of the binary64 quotient
2 * n / 3, which rounds down to 66666666666666664, while the exact
integer ceiling is 66666666666666668; the claimed equality with the
exact ceiling therefore fails for this n. -/
theorem two_thirds_threshold_float_cex :
    ConsensusParams.two_thirds_threshold ⟨100000000000000001⟩ = 66666666666666664
    ∧ specTwoThirdsCeil 100000000000000001 = 66666666666666668
    ∧ ConsensusParams.two_thirds_threshold ⟨100000000000000001⟩ ≠
        specTwoThirdsCeil 100000000000000001 := by
  refine ⟨by decide, by decide, by decide⟩

/-- Claim C6, amended: for max_participants in 0..7 the threshold
equals 0, 1, 2, 2, 3, 4, 4, 5 respectively and agrees with the exact
ceiling of 2 * n / 3 at those values; the agreement with the exact
ceiling does not extend to every n, because the source divides in
binary64 floating point. -/
theorem two_thirds_threshold_table :
    (ConsensusParams.two_thirds_threshold ⟨0⟩ = 0 ∧ specTwoThirdsCeil 0 = 0)
    ∧ (ConsensusParams.two_thirds_threshold ⟨1⟩ = 1 ∧ specTwoThirdsCeil 1 = 1)
    ∧ (ConsensusParams.two_thirds_threshold ⟨2⟩ = 2 ∧ specTwoThirdsCeil 2 = 2)
    ∧ (ConsensusParams.two_thirds_threshold ⟨3⟩ = 2 ∧ specTwoThirdsCeil 3 = 2)
    ∧ (ConsensusParams.two_thirds_threshold ⟨4⟩ = 3 ∧ specTwoThirdsCeil 4 = 3)
    ∧ (ConsensusParams.two_thirds_threshold ⟨5⟩ = 4 ∧ specTwoThirdsCeil 5 = 4)
    ∧ (ConsensusParams.two_thirds_threshold ⟨6⟩ = 4 ∧ specTwoThirdsCeil 6 = 4)
    ∧ (ConsensusParams.two_thirds_threshold ⟨7⟩ = 5 ∧ specTwoThirdsCeil 7 = 5) := by
  refine ⟨⟨by decide, by decide⟩, ⟨by decide, by decide⟩, ⟨by decide, by decide⟩,
    ⟨by decide, by decide⟩, ⟨by decide, by decide⟩, ⟨by decide, by decide⟩,
    ⟨by decide, by decide⟩, ⟨by decide, by decide⟩⟩

/-- Claim C10: payload equality reads only the sender and data
attributes of its right operand, so it holds exactly when sender and
data agree, it accepts any object exposing those two attributes, and
two payloads of different concrete tags with equal sender and data
compare equal. -/
theorem payload_eq_spec :
    (∀ (p : BaseTxPayload) (o : PyDuck),
       BaseTxPayload.pyEq p o = true ↔ (p.sender = o.sender ∧ p.data = o.data))
    ∧ (BaseTxPayload.pyEq exPayloadA (BaseTxPayload.toDuck exPayloadB) = true
       ∧ exPayloadA.transaction_type ≠ exPayloadB.transaction_type) := by
  constructor
  · intro p o
    simp [BaseTxPayload.pyEq]
  · exact ⟨by decide, by decide⟩

/-- Claim C9: a concrete payload class (not skipped as imported or
abstract, and a payload subclass) whose attribute namespace lacks
transaction_type makes class construction abort: the buggy guard of
get_field evaluates getattr without a default, which raises, and the
class is never registered. -/
theorem payload_missing_tag_aborts :
    ∀ (Schema : Type) (inst : DecidableEq Schema) (reg : Registry Schema)
      (attrs : String → Option Value) (cls : Schema),
      attrs "transaction_type" = none →
      metaPayloadNew reg false false true attrs cls =
        .error (.attributeError "transaction_type") := by
  intro Schema inst reg attrs cls h
  simp [metaPayloadNew, metaGetField, h]

/-- Claim C9, witness: a concrete schema with an empty attribute
namespace aborts class construction with the attribute error. -/
theorem payload_missing_tag_aborts_witness :
    @metaPayloadNew Nat instDecidableEqNat (fun _ => none) false false true (fun _ => none) 7 =
      .error (.attributeError "transaction_type") :=
  payload_missing_tag_aborts Nat instDecidableEqNat (fun _ => none) (fun _ => none) 7 rfl

/-- Claim C7: registering a tag bound to a different class raises the
duplicate-tag error; re-registering the same class under its tag
returns the registry unchanged; looking up an unbound tag raises the
key error. -/
theorem registry_spec :
    ∀ (Schema : Type) (inst : DecidableEq Schema),
      (∀ (reg : Registry Schema) (tag : String) (cls prev : Schema),
         reg tag = some prev → prev ≠ cls →
         Registry.register reg tag cls = .error (.duplicateTag tag))
      ∧ (∀ (reg : Registry Schema) (tag : String) (cls : Schema),
           reg tag = some cls → Registry.register reg tag cls = .ok reg)
      ∧ (∀ (reg : Registry Schema) (tag : String),
           reg tag = none → Registry.lookup reg tag = .error (.keyError tag)) := by
  intro Schema inst
  refine ⟨?_, ?_, ?_⟩
  · intro reg tag cls prev hbound hne
    simp [Registry.register, hbound, hne]
  · intro reg tag cls hbound
    have hstep : Registry.register reg tag cls =
        .ok (fun t => if t = tag then some cls else reg t) := by
      simp [Registry.register, hbound]
    rw [hstep]
    congr 1
    funext t
    by_cases ht : t = tag
    · subst ht; simp [hbound]
    · simp [ht]
  · intro reg tag hnone
    simp [Registry.lookup, hnone]

/-- An example registry binding tag a to class one. -/
def exampleRegistry : Registry Nat :=
  fun t => if t = "a" then some 1 else none

/-- Claim C7, witness: on the example registry, rebinding tag a to
class two fails with the duplicate-tag error, rebinding it to class one
returns the registry unchanged, and looking up the unbound tag b fails
with the key error. -/
theorem registry_spec_witness :
    Registry.register exampleRegistry "a" 2 = .error (.duplicateTag "a")
    ∧ Registry.register exampleRegistry "a" 1 = .ok exampleRegistry
    ∧ Registry.lookup exampleRegistry "b" = .error (.keyError "b") :=
  ⟨(registry_spec Nat instDecidableEqNat).1 exampleRegistry "a" 2 1 rfl (by decide),
   (registry_spec Nat instDecidableEqNat).2.1 exampleRegistry "a" 1 rfl,
   (registry_spec Nat instDecidableEqNat).2.2 exampleRegistry "b" rfl⟩

/-- Successful add_block means the block height matched the expected
height and the block was appended. -/
lemma add_block_ok_iff (c c' : Blockchain) (b : Block) :
    c.add_block b = .ok c' ↔ (b.header.height = c.height ∧ c' = ⟨c.blocks ++ [b]⟩) := by
  rw [show c.add_block b =
      (if c.height ≠ b.header.height then
        Except.error (.addBlockError c.height b.header.height)
      else Except.ok ⟨c.blocks ++ [b]⟩) from rfl]
  by_cases h : c.height = b.header.height
  · rw [if_neg (fun hne => hne h)]
    constructor
    · intro hok
      injection hok with h1
      exact ⟨h.symm, h1.symm⟩
    · rintro ⟨-, rfl⟩
      rfl
  · rw [if_pos h]
    constructor
    · intro hok
      exact Except.noConfusion hok
    · rintro ⟨heq, -⟩
      exact absurd heq.symm h

/-- Invariants of sequential block addition: a run of addAll that
succeeds grows the length by the number of blocks and every added block
carried the height current at its own append time. -/
lemma addAll_ok_spec :
    ∀ (bs : List Block) (c0 c : Blockchain), Blockchain.addAll c0 bs = .ok c →
      c.length = c0.length + bs.length ∧
      ∀ i (h : i < bs.length), (bs.get ⟨i, h⟩).header.height = c0.height + i := by
  intro bs
  induction bs with
  | nil =>
    intro c0 c h
    simp only [Blockchain.addAll] at h
    cases h
    exact ⟨rfl, fun i hi => absurd hi (Nat.not_lt_zero i)⟩
  | cons b rest ih =>
    intro c0 c h
    simp only [Blockchain.addAll] at h
    cases hadd : c0.add_block b with
    | error e => rw [hadd] at h; cases h
    | ok c1 =>
      rw [hadd] at h
      obtain ⟨hheight, hc1⟩ := (add_block_ok_iff c0 c1 b).mp hadd
      have hlen1 : c1.length = c0.length + 1 := by
        subst hc1; simp [Blockchain.length]
      have hheight1 : c1.height = c0.height + 1 := by
        simp only [Blockchain.height, hlen1]
        push_cast
        ring
      obtain ⟨hlen, hidx⟩ := ih c1 c h
      constructor
      · rw [hlen, hlen1, List.length_cons]
        omega
      · intro i hi
        cases i with
        | zero => simpa using hheight
        | succ j =>
          have hj : j < rest.length := by
            simpa [List.length_cons] using hi
          have hstep := hidx j hj
          simp only [List.get]
          rw [hstep, hheight1]
          push_cast
          ring

/-- Claim C4: the height of a blockchain is always its length plus one;
add_block raises the add-block error, with the expected and actual
heights, exactly when the block header height differs from the chain
height, and otherwise appends the block; and a chain built by n
successful appends from the empty chain has length n, height n plus
one, and its blocks carry the consecutive heights one to n. -/
theorem blockchain_invariants :
    (∀ c : Blockchain, c.height = (c.length : Int) + 1)
    ∧ (∀ (c : Blockchain) (b : Block), b.header.height ≠ c.height →
        c.add_block b = .error (.addBlockError c.height b.header.height))
    ∧ (∀ (c : Blockchain) (b : Block), b.header.height = c.height →
        c.add_block b = .ok ⟨c.blocks ++ [b]⟩)
    ∧ (∀ (bs : List Block) (c : Blockchain),
        Blockchain.addAll Blockchain.empty bs = .ok c →
        c.length = bs.length ∧ c.height = (bs.length : Int) + 1 ∧
        ∀ i (h : i < bs.length), (bs.get ⟨i, h⟩).header.height = (i : Int) + 1) := by
  refine ⟨?_, ?_, ?_, ?_⟩
  · intro c; rfl
  · intro c b hne
    rw [show c.add_block b =
        (if c.height ≠ b.header.height then
          Except.error (.addBlockError c.height b.header.height)
        else Except.ok ⟨c.blocks ++ [b]⟩) from rfl]
    rw [if_pos (fun h => hne h.symm)]
  · intro c b heq
    exact (add_block_ok_iff c ⟨c.blocks ++ [b]⟩ b).mpr ⟨heq, rfl⟩
  · intro bs c h
    obtain ⟨hlen, hidx⟩ := addAll_ok_spec bs Blockchain.empty c h
    have hlen' : c.length = bs.length := by
      simpa [Blockchain.empty, Blockchain.length] using hlen
    refine ⟨hlen', by simp [Blockchain.height, hlen'], ?_⟩
    intro i hi
    have hstep := hidx i hi
    rw [hstep]
    simp only [Blockchain.empty, Blockchain.height, Blockchain.length,
      List.length_nil, Nat.cast_zero]
    ring

/-- Claim C4, witness: concrete instances of the blockchain facts: the
empty chain expects height one, rejects a block of height three naming
both heights, accepts a block of height one, and two successful appends
give length two. -/
theorem blockchain_invariants_witness :
    Blockchain.empty.height = (Blockchain.empty.length : Int) + 1
    ∧ Blockchain.empty.add_block blkH3 =
        .error (.addBlockError Blockchain.empty.height blkH3.header.height)
    ∧ Blockchain.empty.add_block blkH1 = .ok ⟨Blockchain.empty.blocks ++ [blkH1]⟩
    ∧ (Blockchain.mk [blkH1, blkH2]).length = [blkH1, blkH2].length :=
  ⟨blockchain_invariants.1 Blockchain.empty,
   blockchain_invariants.2.1 Blockchain.empty blkH3 (by decide),
   blockchain_invariants.2.2.1 Blockchain.empty blkH1 (by decide),
   (blockchain_invariants.2.2.2 [blkH1, blkH2] ⟨[blkH1, blkH2]⟩ rfl).1⟩

/-- Looking up a key after setting one key of a dict: the set key
answers the new value, every other key is unchanged. -/
lemma dictGet_dictSet (d : List (String × Value)) (k j : String) (v : Value) :
    dictGet (dictSet d k v) j = if j = k then some v else dictGet d j := by
  induction d with
  | nil =>
    by_cases hjk : j = k
    · simp [dictSet, dictGet, hjk]
    · have hkj : ¬ k = j := fun h => hjk h.symm
      simp [dictSet, dictGet, hjk, hkj]
  | cons kv rest ih =>
    obtain ⟨k', v'⟩ := kv
    by_cases hk : k' = k
    · subst hk
      by_cases hjk : j = k'
      · subst hjk
        simp [dictSet, dictGet]
      · have hkj : ¬ k' = j := fun h => hjk h.symm
        simp [dictSet, dictGet, hjk, hkj]
    · by_cases hkj : k' = j
      · subst hkj
        simp [dictSet, dictGet, hk]
      · simp [dictSet, dictGet, hk, hkj, ih]

/-- A key absent from a dict looks up to none. -/
lemma dictGet_eq_none (d : List (String × Value)) (k : String)
    (h : k ∉ d.map Prod.fst) : dictGet d k = none := by
  induction d with
  | nil => rfl
  | cons kv rest ih =>
    obtain ⟨k', v'⟩ := kv
    simp only [List.map_cons, List.mem_cons, not_or] at h
    have hne : ¬ k' = k := fun he => h.1 he.symm
    simp only [dictGet, if_neg hne, ih h.2]

/-- Looking up a key after a dict update with overrides of distinct
keys: an overridden key answers the override, any other key is
unchanged. -/
lemma dictGet_dictUpdate (o : List (String × Value)) :
    ∀ (d : List (String × Value)) (j : String),
      (o.map Prod.fst).Nodup →
      dictGet (dictUpdate d o) j = (dictGet o j).or (dictGet d j) := by
  induction o with
  | nil =>
    intro d j _
    simp [dictUpdate, dictGet]
  | cons kv o' ih =>
    intro d j hnodup
    obtain ⟨k, v⟩ := kv
    simp only [List.map_cons, List.nodup_cons] at hnodup
    have hstep : dictUpdate d ((k, v) :: o') = dictUpdate (dictSet d k v) o' := rfl
    rw [hstep, ih (dictSet d k v) j hnodup.2, dictGet_dictSet]
    by_cases hjk : j = k
    · subst hjk
      rw [dictGet_eq_none o' j hnodup.1]
      simp [dictGet]
    · have hkj : ¬ k = j := fun h => hjk h.symm
      simp [dictGet, hjk, hkj]

/-- Setting an existing key leaves the key sequence of a dict
unchanged. -/
lemma keys_dictSet (d : List (String × Value)) (k : String) (v : Value)
    (h : k ∈ d.map Prod.fst) :
    (dictSet d k v).map Prod.fst = d.map Prod.fst := by
  induction d with
  | nil => simp at h
  | cons kv rest ih =>
    obtain ⟨k', v'⟩ := kv
    simp only [List.map_cons] at h ⊢
    by_cases hk : k' = k
    · simp [dictSet, hk]
    · have hmem : k ∈ rest.map Prod.fst := by
        rcases List.mem_cons.mp h with h1 | h2
        · exact absurd h1.symm hk
        · exact h2
      simp [dictSet, hk, ih hmem]

/-- Updating with overrides whose keys are all existing fields leaves
the key sequence of a dict unchanged. -/
lemma keys_dictUpdate (o : List (String × Value)) :
    ∀ (d : List (String × Value)),
      (∀ kv ∈ o, kv.1 ∈ d.map Prod.fst) →
      (dictUpdate d o).map Prod.fst = d.map Prod.fst := by
  induction o with
  | nil => intro d _; rfl
  | cons kv o' ih =>
    intro d hsub
    obtain ⟨k, v⟩ := kv
    have hk : k ∈ d.map Prod.fst := hsub (k, v) (List.mem_cons_self _ _)
    have hkeys : (dictSet d k v).map Prod.fst = d.map Prod.fst := keys_dictSet d k v hk
    have hstep : dictUpdate d ((k, v) :: o') = dictUpdate (dictSet d k v) o' := rfl
    rw [hstep, ih (dictSet d k v) (fun kv' hmem => by
      rw [hkeys]; exact hsub kv' (List.mem_cons_of_mem _ hmem)), hkeys]

/-- Claim C8: updating a period state with overrides of distinct keys,
all of which are fields of the state (the constructor of the source
accepts exactly the declared fields), yields a state of the same schema
(the same field names in the same order) that answers the override on
every overridden field and the original value on every other field; the
update is a pure function of the original state, which is returned
unchanged to its owner. -/
theorem period_state_update_spec :
    ∀ (x : BasePeriodState) (o : List (String × Value)),
      (o.map Prod.fst).Nodup →
      (∀ kv ∈ o, kv.1 ∈ x.map Prod.fst) →
      (∀ k, dictGet (x.update o) k = (dictGet o k).or (dictGet x k))
      ∧ (x.update o).map Prod.fst = x.map Prod.fst := by
  intro x o hnodup hsub
  exact ⟨fun k => dictGet_dictUpdate o x k hnodup, keys_dictUpdate o x hsub⟩

/-- An example period state with a participants field and one more
field. -/
def exState : BasePeriodState :=
  [("participants", .vStr "agents"), ("round_count", .vInt 0)]

/-- An example override of the participants field only. -/
def exOverride : List (String × Value) :=
  [("participants", .vStr "new_agents")]

/-- Claim C8, witness: updating the example state overrides the
participants field, keeps the other field, and keeps the schema. -/
theorem period_state_update_spec_witness :
    dictGet (exState.update exOverride) "participants" =
      ((dictGet exOverride "participants").or (dictGet exState "participants"))
    ∧ dictGet (exState.update exOverride) "round_count" =
      ((dictGet exOverride "round_count").or (dictGet exState "round_count"))
    ∧ (exState.update exOverride).map Prod.fst = exState.map Prod.fst :=
  ⟨(period_state_update_spec exState exOverride (by decide) (by decide)).1 "participants",
   (period_state_update_spec exState exOverride (by decide) (by decide)).1 "round_count",
   (period_state_update_spec exState exOverride (by decide) (by decide)).2⟩

/-- A round with an applier for tag a but no checker at all, so its
check_transaction is false on every transaction. -/
def exRoundApplierOnly : AbstractRound :=
  .mk "round_applier_only"
    (fun _ => none)
    (fun t => if t = "a" then some applyA else none)
    none

/-- Claim C5, counterexample: on a round with no handler for the tag of
the transaction and whose check_transaction is false, the claimed rule
that a false re-check fails with the transaction-not-valid error does
not hold; the source looks the applier up first, so the raised error is
the unknown-transaction one. -/
theorem process_transaction_order_cex :
    AbstractRound.check_transaction roundLeaf exTxA = false
    ∧ AbstractRound.process_transaction roundLeaf exTxA = .error .unknownTransactionType
    ∧ PyError.unknownTransactionType ≠ PyError.transactionNotValid := by
  refine ⟨rfl, rfl, by decide⟩

/-- Claim C5, amended: process_transaction first looks up the applier
of the payload tag and fails with the unknown-transaction error when it
is missing, even when check_transaction is false; with an applier
present, it re-runs check_transaction and fails with the
transaction-not-valid error on a false verdict; otherwise it delegates
to the applier.  On either failure the round is left unchanged, which
the Except-valued embedding expresses by returning no round. -/
theorem process_transaction_spec :
    ∀ (r : AbstractRound) (tx : Transaction),
      (r.appliers tx.payload.transaction_type = none →
        r.process_transaction tx = .error .unknownTransactionType)
      ∧ (∀ f, r.appliers tx.payload.transaction_type = some f →
          r.check_transaction tx = false →
          r.process_transaction tx = .error .transactionNotValid)
      ∧ (∀ f, r.appliers tx.payload.transaction_type = some f →
          r.check_transaction tx = true →
          r.process_transaction tx = .ok (f tx.payload)) := by
  intro r tx
  refine ⟨?_, ?_, ?_⟩
  · intro h
    simp [AbstractRound.process_transaction, h]
  · intro f hf hc
    simp [AbstractRound.process_transaction, hf, hc]
  · intro f hf hc
    simp [AbstractRound.process_transaction, hf, hc]

/-- Claim C5, witness: the three branches at concrete rounds: missing
applier gives the unknown-transaction error, applier with false check
gives the transaction-not-valid error, applier with true check runs the
applier. -/
theorem process_transaction_spec_witness :
    AbstractRound.process_transaction roundLeaf exTxA = .error .unknownTransactionType
    ∧ AbstractRound.process_transaction exRoundApplierOnly exTxA = .error .transactionNotValid
    ∧ AbstractRound.process_transaction exRound exTxA = .ok (applyA exTxA.payload) :=
  ⟨(process_transaction_spec roundLeaf exTxA).1 rfl,
   (process_transaction_spec exRoundApplierOnly exTxA).2.1 applyA rfl rfl,
   (process_transaction_spec exRound exTxA).2.2 applyA rfl rfl⟩

/-- Claim C1, counterexample: in the deliver-tx phase, with a round
whose checker accepts the tag but which has no applier for it, the
check verdict is true yet deliver_tx does not return the verdict: it
propagates the unknown-transaction error raised by
process_transaction. -/
theorem deliver_tx_missing_applier_cex :
    AbstractRound.check_transaction exRoundNoApplier exTxA = true
    ∧ Period.deliver_tx exPeriodNoApplier exTxA = .error .unknownTransactionType
    ∧ isErr (Period.deliver_tx exPeriodNoApplier exTxA) = true := by
  refine ⟨rfl, rfl, rfl⟩

/-- Claim C1, amended: in the deliver-tx phase, deliver_tx returns the
verdict of check_transaction on the current round provided the round
has an applier for the tag whenever the verdict is true: a false
verdict returns false with the period unchanged, so the transaction
reaches neither the round nor the builder and is excluded from the
committed block; a true verdict with an applier processes the
transaction on the round, appends it to the builder and returns true; a
true verdict without an applier propagates the unknown-transaction
error instead of returning. -/
theorem deliver_tx_matches_check :
    ∀ (p : Period) (r : AbstractRound) (tx : Transaction),
      p.block_construction_phase = .waitingForDeliverTx →
      p.current_round = some r →
      ((r.check_transaction tx = false → Period.deliver_tx p tx = .ok (false, p))
       ∧ (∀ f, r.check_transaction tx = true →
            r.appliers tx.payload.transaction_type = some f →
            Period.deliver_tx p tx =
              .ok (true, { p with
                             current_round := some (f tx.payload),
                             block_builder := p.block_builder.add_transaction tx }))
       ∧ (r.check_transaction tx = true →
            r.appliers tx.payload.transaction_type = none →
            Period.deliver_tx p tx = .error .unknownTransactionType)) := by
  intro p r tx hph hr
  refine ⟨?_, ?_, ?_⟩
  · intro hc
    simp [Period.deliver_tx, hph, hr, hc]
  · intro f hc hf
    simp [Period.deliver_tx, AbstractRound.process_transaction, hph, hr, hc, hf]
  · intro hc hf
    simp [Period.deliver_tx, AbstractRound.process_transaction, hph, hr, hc, hf]

/-- Claim C1, witness: on the healthy period in the deliver-tx phase,
a transaction of unknown tag is reported false with the period
unchanged, and the accepted tag-a transaction is processed, appended to
the builder and reported true. -/
theorem deliver_tx_matches_check_witness :
    Period.deliver_tx exPeriodDeliver exTxB = .ok (false, exPeriodDeliver)
    ∧ Period.deliver_tx exPeriodDeliver exTxA =
        .ok (true, { exPeriodDeliver with
                       current_round := some (applyA exTxA.payload),
                       block_builder := exPeriodDeliver.block_builder.add_transaction exTxA }) :=
  ⟨(deliver_tx_matches_check exPeriodDeliver exRound exTxB rfl rfl).1 rfl,
   (deliver_tx_matches_check exPeriodDeliver exRound exTxA rfl rfl).2.1 applyA rfl rfl⟩

/-- Claim C2: in the waiting-for-commit phase with the builder header
set, a header height different from the chain height makes commit fail
with the add-block error naming the expected and actual heights; the
phase move to waiting-for-begin-block and the round update sit after
the failed append in the source, so neither happens, and the
Except-valued embedding returns no updated period: chain, phase and
round are all left as they were. -/
theorem commit_add_block_failure :
    ∀ (p : Period) (hdr : Header),
      p.block_construction_phase = .waitingForCommit →
      p.block_builder.current_header = some hdr →
      hdr.height ≠ p.blockchain.height →
      Period.commit p = .error (.addBlockError p.blockchain.height hdr.height) := by
  intro p hdr hph hhdr hne
  have hne' : ¬ (p.blockchain.height = hdr.height) := fun h => hne h.symm
  simp [Period.commit, hph, BlockBuilder.get_block, hhdr, Blockchain.add_block, hne']

/-- Claim C2, witness: the concrete period in the commit phase whose
builder header carries height three against an empty chain expecting
height one fails with the add-block error for those two heights. -/
theorem commit_add_block_failure_witness :
    Period.commit exPeriodCommitBad =
      .error (.addBlockError exPeriodCommitBad.blockchain.height (Header.mk 3).height) :=
  commit_add_block_failure exPeriodCommitBad ⟨3⟩ rfl rfl (by decide)

/-- Claim C3, counterexample: on a healthy unfinished period, of the
twelve phase and entry-point combinations exactly eight raise, not the
claimed nine: each of the four entry points succeeds in its matching
phase, and end_block shares the deliver-tx phase with deliver_tx. -/
theorem period_phase_guard_count_cex :
    numFailingCells exPeriod exHeader1 exTxA = 8
    ∧ numFailingCells exPeriod exHeader1 exTxA ≠ 9 := by
  refine ⟨by decide, by decide⟩

/-- Claim C3, amended: an entry point invoked in a non-matching phase
fails with the phase-mismatch error for that entry point, leaving the
period unchanged (the embedding returns no updated period), which
covers eight of the twelve phase and entry-point combinations; for
begin_block the finished check comes first, so a finished period fails
with the period-finished error regardless of phase, and the
phase-mismatch answer of begin_block is conditional on the period not
being finished. -/
theorem period_phase_guard :
    (∀ (p : Period) (hdr : Header), p.is_finished = true →
       Period.begin_block p hdr = .error .periodFinished)
    ∧ (∀ (p : Period) (hdr : Header), p.is_finished = false →
         p.block_construction_phase ≠ .waitingForBeginBlock →
         Period.begin_block p hdr = .error (.phaseMismatch "begin_block"))
    ∧ (∀ (p : Period) (tx : Transaction),
         p.block_construction_phase ≠ .waitingForDeliverTx →
         Period.deliver_tx p tx = .error (.phaseMismatch "deliver_tx"))
    ∧ (∀ p : Period, p.block_construction_phase ≠ .waitingForDeliverTx →
         Period.end_block p = .error (.phaseMismatch "end_block"))
    ∧ (∀ p : Period, p.block_construction_phase ≠ .waitingForCommit →
         Period.commit p = .error (.phaseMismatch "commit")) := by
  refine ⟨?_, ?_, ?_, ?_, ?_⟩
  · intro p hdr h
    simp [Period.begin_block, h]
  · intro p hdr hfin hph
    simp [Period.begin_block, hfin, hph]
  · intro p tx hph
    simp [Period.deliver_tx, hph]
  · intro p hph
    simp [Period.end_block, hph]
  · intro p hph
    simp [Period.commit, hph]

/-- A period that has terminated: its current round is cleared. -/
def exPeriodFinished : Period :=
  ⟨Blockchain.empty, .waitingForBeginBlock, exBuilder1, none, [], []⟩

/-- Claim C3, witness: begin_block on the finished period fails with
the period-finished error; each entry point invoked on a concrete
period in a non-matching phase fails with its phase-mismatch error. -/
theorem period_phase_guard_witness :
    Period.begin_block exPeriodFinished exHeader1 = .error .periodFinished
    ∧ Period.begin_block exPeriodDeliver exHeader1 = .error (.phaseMismatch "begin_block")
    ∧ Period.deliver_tx exPeriod exTxA = .error (.phaseMismatch "deliver_tx")
    ∧ Period.end_block exPeriod = .error (.phaseMismatch "end_block")
    ∧ Period.commit exPeriod = .error (.phaseMismatch "commit") :=
  ⟨period_phase_guard.1 exPeriodFinished exHeader1 rfl,
   period_phase_guard.2.1 exPeriodDeliver exHeader1 rfl (by decide),
   period_phase_guard.2.2.1 exPeriod exTxA (by decide),
   period_phase_guard.2.2.2.1 exPeriod (by decide),
   period_phase_guard.2.2.2.2 exPeriod (by decide)⟩
